import Mathlib

/-
Verification of the eDEX-UI observability subsystem (logger, performance
monitor, error tracker, health-check registry) against its specification.
The JavaScript sources in src/shared are shallowly embedded: JS numbers that
are used as sizes, counters or levels become Nat, measured durations become
Rat, fallible filesystem primitives return Except, and try/catch becomes a
match on the Except value.  JS `x || default` on a possibly-undefined field
is modelled on Option with the JS falsiness of 0 and the empty string.
-/

namespace Edex

/-- JS `v || d` for an optional numeric config field: `0` is falsy, so an
explicit `0` falls back to the default, as does an absent field. -/
def jsOrNat (v : Option Nat) (d : Nat) : Nat :=
  match v with
  | none => d
  | some n => if n = 0 then d else n

/-- JS `v || d` for an optional string field: the empty string is falsy. -/
def jsOrStr (v : Option String) (d : String) : String :=
  match v with
  | none => d
  | some s => if s = "" then d else s

/-! ## Logger (src/shared/logger/index.js) -/

/-- Numeric log levels, from `const LogLevel` in the source:
ERROR 0, WARN 1, INFO 2, DEBUG 3, TRACE 4. -/
def LogLevelERROR : Nat := 0

def LogLevelWARN : Nat := 1

def LogLevelINFO : Nat := 2

def LogLevelDEBUG : Nat := 3

def LogLevelTRACE : Nat := 4

/-- The `LogLevelNames` array of the source. -/
def LogLevelNames : List String := ["ERROR", "WARN", "INFO", "DEBUG", "TRACE"]

/-- An output destination of the logger (`this.outputs` entries). -/
inductive Dest where
  | console
  | file
deriving DecidableEq

/-- Constructor argument of `Logger`: every field may be absent
(JS `undefined`). -/
structure LoggerCfg where
  level : Option Nat
  module : Option String
  outputs : Option (List Dest)
  maxLogSize : Option Nat
  maxLogFiles : Option Nat

/-- The configured state of a `Logger` instance after its constructor ran. -/
structure Logger where
  level : Nat
  module : String
  outputs : List Dest
  maxLogSize : Nat
  maxLogFiles : Nat
deriving DecidableEq

/-- Field initialisation of the `Logger` constructor.  `config.level ||
LogLevel.INFO` uses JS `||`, so a supplied level 0 (ERROR) is falsy and falls
back to INFO = 2; likewise `config.module || 'app'` treats the empty string as
falsy.  `config.outputs || ['console']` only defaults when the field is
absent, because a JS array (even empty) is truthy. -/
def Logger.make (cfg : LoggerCfg) : Logger :=
  { level := jsOrNat cfg.level 2
    module := jsOrStr cfg.module "app"
    outputs := cfg.outputs.getD [Dest.console]
    maxLogSize := jsOrNat cfg.maxLogSize (10 * 1024 * 1024)
    maxLogFiles := jsOrNat cfg.maxLogFiles 5 }

/-- Abstract filesystem faults relevant to the logger: whether the log
directory already exists, whether `mkdirSync` would succeed, and whether
`appendFileSync` would succeed. -/
structure FsState where
  dirExists : Bool
  mkdirOk : Bool
  appendOk : Bool
deriving DecidableEq

/-- Embedding of `fs.mkdirSync(this.logDir, {recursive: true})`: throws when
the directory cannot be created. -/
def mkdirSync (fs : FsState) : Except String Unit :=
  if fs.mkdirOk then Except.ok () else Except.error "EACCES: cannot create log directory"

/-- Embedding of `fs.appendFileSync(logFile, formatted, 'utf8')`. -/
def appendFileSync (fs : FsState) : Except String Unit :=
  if fs.appendOk then Except.ok () else Except.error "ENOSPC: append failed"

/-- `Logger.ensureLogDirectory`: `if (!fs.existsSync(dir)) fs.mkdirSync(dir)`.
There is no try/catch in the source, so a failing `mkdirSync` propagates. -/
def ensureLogDirectory (fs : FsState) : Except String Unit :=
  if fs.dirExists then Except.ok () else mkdirSync fs

/-- The `Logger` constructor as a fallible computation: it initialises the
fields and calls `ensureLogDirectory` (and then `rotateLogs`, whose
file-set effect is modelled separately below); an exception raised by
`ensureLogDirectory` escapes to the caller. -/
def Logger.construct (cfg : LoggerCfg) (fs : FsState) : Except String Logger :=
  match ensureLogDirectory fs with
  | Except.error e => Except.error e
  | Except.ok _ => Except.ok (Logger.make cfg)

/-- A structured log record as built by `Logger.formatMessage`. -/
structure LogEntry where
  timestamp : Nat
  level : String
  module : String
  message : String
  meta : List (String × String)
deriving DecidableEq

/-- `Logger.formatMessage(level, message, meta)`: level name looked up in
`LogLevelNames` (an out-of-range index yields JS `undefined`). -/
def formatMessage (lg : Logger) (ts : Nat) (lvl : Nat) (msg : String)
    (meta : List (String × String)) : LogEntry :=
  { timestamp := ts
    level := LogLevelNames.getD lvl "undefined"
    module := lg.module
    message := msg
    meta := meta }

/-- An observable output of one `write` call: either a structured record
delivered to a destination, or the `console.error` fallback line emitted when
the file append fails. -/
inductive Emission where
  | record (dest : Dest) (entry : LogEntry)
  | fallback (msg : String)
deriving DecidableEq

/-- Decides whether an emission is a structured record on destination `d`. -/
def emitsTo (d : Dest) : Emission → Bool
  | Emission.record d' _ => d' = d
  | Emission.fallback _ => false

/-- `Logger.write(level, message, meta)`.  The level gate is
`if (level > this.level) return`.  Console output happens when `'console'` is
among the outputs; file output appends to the log file inside a try/catch
whose handler prints a fallback line to the console.  The `Except` result
type records whether the call raised into the caller. -/
def Logger.write (lg : Logger) (fs : FsState) (ts : Nat) (lvl : Nat)
    (msg : String) (meta : List (String × String)) : Except String (List Emission) :=
  if lg.level < lvl then Except.ok []
  else
    let entry := formatMessage lg ts lvl msg meta
    let consoleOut :=
      if Dest.console ∈ lg.outputs then [Emission.record Dest.console entry] else []
    let fileOut :=
      if Dest.file ∈ lg.outputs then
        match appendFileSync fs with
        | Except.ok _ => [Emission.record Dest.file entry]
        | Except.error e => [Emission.fallback ("Failed to write to log file: " ++ e)]
      else []
    Except.ok (consoleOut ++ fileOut)

/-- The emissions of a `write` call (which, as proved below, never raises). -/
def Logger.writeOut (lg : Logger) (fs : FsState) (ts : Nat) (lvl : Nat)
    (msg : String) (meta : List (String × String)) : List Emission :=
  match lg.write fs ts lvl msg meta with
  | Except.ok es => es
  | Except.error _ => []

/-! ## Log rotation (Logger.rotateLogs) as an effect on the log directory

The directory is abstracted to the size of the active file `edex-ui.log`
(`none` when absent) and the set of generation indices `i` for which
`edex-ui.log.i` is present.  `unlinkSync` is `erase`; `renameSync i j` is
erase-then-insert (it silently overwrites an existing target, as `insert`
does). -/

/-- The files of the log directory that the logger manages. -/
structure LogFS where
  activeSize : Option Nat
  gens : Finset Nat
deriving DecidableEq

/-- A freshly created, empty log directory. -/
def LogFS.empty : LogFS := { activeSize := none, gens := ∅ }

/-- One iteration of the rotation loop body at index `i`: if `edex-ui.log.i`
exists, delete it when `i == maxLogFiles - 1` (the oldest generation),
otherwise rename it to `edex-ui.log.(i+1)`.  Returns the new generation set
and the list of deleted generation indices. -/
def rotateIter (maxLogFiles : Nat) (g : Finset Nat) (i : Nat) : Finset Nat × List Nat :=
  if i ∈ g then
    if i = maxLogFiles - 1 then (g.erase i, [i])
    else (insert (i + 1) (g.erase i), [])
  else (g, [])

/-- The rotation loop `for (let i = maxLogFiles - 1; i > 0; i--)`, running the
body at indices `k, k-1, ..., 1`; called with `k = maxLogFiles - 1`. -/
def rotateLoop (maxLogFiles : Nat) : Nat → Finset Nat → Finset Nat × List Nat
  | 0, g => (g, [])
  | i + 1, g =>
    let p := rotateIter maxLogFiles g (i + 1)
    let q := rotateLoop maxLogFiles i p.1
    (q.1, p.2 ++ q.2)

/-- `Logger.rotateLogs`: if the active file exists and its size exceeds
`maxLogSize`, shift the generations up (deleting the oldest) and rename the
active file to generation 1; the next append will create a fresh active file.
Returns the new directory state and the deleted generation indices. -/
def rotateLogs (maxLogSize maxLogFiles : Nat) (fs : LogFS) : LogFS × List Nat :=
  match fs.activeSize with
  | none => (fs, [])
  | some sz =>
    if maxLogSize < sz then
      let p := rotateLoop maxLogFiles (maxLogFiles - 1) fs.gens
      ({ activeSize := none, gens := insert 1 p.1 }, p.2)
    else (fs, [])

/-- Directory-level operations: a file append of `sz` bytes (creating the
active file when absent), or a rotation check (as performed by the `Logger`
constructor). -/
inductive LogOp where
  | append (sz : Nat)
  | rotateCheck
deriving DecidableEq

/-- Effect of one operation on the log directory. -/
def LogFS.step (maxLogSize maxLogFiles : Nat) (fs : LogFS) (op : LogOp) : LogFS :=
  match op with
  | LogOp.append sz => { fs with activeSize := some (fs.activeSize.getD 0 + sz) }
  | LogOp.rotateCheck => (rotateLogs maxLogSize maxLogFiles fs).1

/-- Run a sequence of appends and rotation checks from an empty directory. -/
def LogFS.run (maxLogSize maxLogFiles : Nat) (ops : List LogOp) : LogFS :=
  ops.foldl (LogFS.step maxLogSize maxLogFiles) LogFS.empty

/-- Number of logger-managed files present in the directory. -/
def LogFS.fileCount (fs : LogFS) : Nat :=
  (match fs.activeSize with
   | none => 0
   | some _ => 1) + fs.gens.card

/-- Invariant of the generation set: every present generation index lies in
the interval `[1, max (maxLogFiles - 1) 1]`. -/
def GensBounded (maxLogFiles : Nat) (fs : LogFS) : Prop :=
  ∀ j ∈ fs.gens, 1 ≤ j ∧ j ≤ max (maxLogFiles - 1) 1

/-! ## PerformanceMonitor (src/shared/monitoring/performance-monitor.js) -/

/-- One stored sample of a custom metric series: `{timestamp, value,
...metadata}`, where the only metadata key the monitor itself ever attaches
is the `error: true` flag of `measure`/`measureAsync`. -/
structure Sample where
  timestamp : Nat
  value : ℚ
  err : Bool
deriving DecidableEq

/-- The monitor state relevant to custom metric series. -/
structure PMState where
  enabled : Bool
  maxSamples : Nat
  custom : String → List Sample

/-- `PerformanceMonitor.recordMetric(name, value, metadata)`: no-op when
disabled; otherwise push the sample onto the named series and `shift()` the
series once if its length now exceeds `maxSamples`. -/
def PMState.recordMetric (s : PMState) (name : String) (x : Sample) : PMState :=
  if s.enabled = false then s
  else
    let series := s.custom name ++ [x]
    let series := if s.maxSamples < series.length then series.tail else series
    { s with custom := fun n => if n = name then series else s.custom n }

/-- Fold `recordMetric` over a sequence of samples for one metric name. -/
def PMState.recordAll (s : PMState) (name : String) (xs : List Sample) : PMState :=
  xs.foldl (fun st x => st.recordMetric name x) s

/-- `PerformanceMonitor.measure(name, fn)`: the outcome of `fn()` is a value
of `Except ε α`; the clock readings of the two `performance.now()` calls are
`t0` and `t1` and `ts` is the `Date.now()` of the recorded sample.  On
success the result is returned after recording the duration; on failure the
duration is recorded with the `error: true` flag and the failure is
re-thrown.  The third component lists the `logger.warn` slow-operation
messages emitted. -/
def PMState.measure {ε α : Type} (s : PMState) (name : String) (t0 t1 : ℚ)
    (ts : Nat) (outcome : Except ε α) : Except ε α × PMState × List String :=
  match outcome with
  | Except.ok a =>
    (Except.ok a, s.recordMetric name { timestamp := ts, value := t1 - t0, err := false },
      if 100 < t1 - t0 then ["Slow operation detected"] else [])
  | Except.error e =>
    (Except.error e, s.recordMetric name { timestamp := ts, value := t1 - t0, err := true }, [])

/-- `PerformanceMonitor.measureAsync(name, fn)`: textually the same algorithm
as `measure` with `await fn()`; the outcome of the awaited promise is the
`Except` value. -/
def PMState.measureAsync {ε α : Type} (s : PMState) (name : String) (t0 t1 : ℚ)
    (ts : Nat) (outcome : Except ε α) : Except ε α × PMState × List String :=
  match outcome with
  | Except.ok a =>
    (Except.ok a, s.recordMetric name { timestamp := ts, value := t1 - t0, err := false },
      if 100 < t1 - t0 then ["Slow operation detected"] else [])
  | Except.error e =>
    (Except.error e, s.recordMetric name { timestamp := ts, value := t1 - t0, err := true }, [])

/-- The statistics record returned by `calculateStats` for a non-empty
series. -/
structure Stats where
  min : ℚ
  max : ℚ
  avg : ℚ
  median : ℚ
  p95 : ℚ
  p99 : ℚ
  count : Nat
deriving DecidableEq

/-- JS `Math.min(...values)` on a non-empty list. -/
def listMin : List ℚ → ℚ
  | [] => 0
  | x :: xs => xs.foldl min x

/-- JS `Math.max(...values)` on a non-empty list. -/
def listMax : List ℚ → ℚ
  | [] => 0
  | x :: xs => xs.foldl max x

/-- JS `values.reduce((a, b) => a + b, 0)`. -/
def listSum (l : List ℚ) : ℚ := l.foldl (· + ·) 0

/-- JS `[...values].sort((a, b) => a - b)`: ascending numeric sort. -/
def sortAsc (l : List ℚ) : List ℚ := List.insertionSort (fun a b : ℚ => a ≤ b) l

/-- `PerformanceMonitor.calculateStats(samples)`: null for an absent or empty
series; otherwise min/max/avg over the values and percentiles read from the
ascending sort at `Math.floor(length / 2)`, `Math.floor(length * 0.95)` and
`Math.floor(length * 0.99)` (the two float products are exact here, so the
Nat divisions below are their floors). -/
def calculateStats (samples : Option (List Sample)) : Option Stats :=
  match samples with
  | none => none
  | some s =>
    if s.length = 0 then none
    else
      let values := s.map Sample.value
      let sorted := sortAsc values
      some { min := listMin values
             max := listMax values
             avg := listSum values / (values.length : ℚ)
             median := sorted.getD (sorted.length / 2) 0
             p95 := sorted.getD (sorted.length * 95 / 100) 0
             p99 := sorted.getD (sorted.length * 99 / 100) 0
             count := values.length }

/-! ## ErrorTracker (second module of src/shared/logger/index.js sources) -/

/-- A stored error record: `{timestamp, message, type}` (the stack and the
context spread are irrelevant to the tracked claims and carry no logic). -/
structure ErrorRecord where
  timestamp : Nat
  message : String
  type : String
deriving DecidableEq

/-- The JS error argument of `trackError`: its `.message` and `.type` fields
may be absent, and `String(error)` is its string conversion. -/
structure JsError where
  message : Option String
  str : String
  type : Option String
deriving DecidableEq

/-- The tracker state: bounded history plus the insertion-ordered `Map` of
per-message counts (a JS `Map` iterates keys in first-insertion order, and
`set` on an existing key keeps its position). -/
structure ETState where
  enabled : Bool
  maxErrors : Nat
  errors : List ErrorRecord
  errorCounts : List (String × Nat)
deriving DecidableEq

/-- JS `Map.get`. -/
def mapGet (m : List (String × Nat)) (k : String) : Option Nat :=
  match m with
  | [] => none
  | (k', v') :: rest => if k' = k then some v' else mapGet rest k

/-- JS `Map.set`: update in place when the key exists, append otherwise. -/
def mapSet (m : List (String × Nat)) (k : String) (v : Nat) : List (String × Nat) :=
  match m with
  | [] => [(k, v)]
  | (k', v') :: rest => if k' = k then (k, v) :: rest else (k', v') :: mapSet rest k v

/-- The normalised `errorRecord` that `trackError` builds: `Date.now()`
timestamp, `error.message || String(error)`, `error.type || 'error'`. -/
def normRecord (ts : Nat) (e : JsError) : ErrorRecord :=
  { timestamp := ts, message := jsOrStr e.message e.str, type := jsOrStr e.type "error" }

/-- `ErrorTracker.trackError(error, context)`: no-op when disabled; otherwise
normalise the record (`error.message || String(error)`, `error.type ||
'error'`), push it with a single `shift()` once the history exceeds
`maxErrors`, and increment the frequency count of the message. -/
def ETState.trackError (t : ETState) (ts : Nat) (e : JsError) : ETState :=
  if t.enabled = false then t
  else
    let record : ErrorRecord := normRecord ts e
    let errors := t.errors ++ [record]
    let errors := if t.maxErrors < errors.length then errors.tail else errors
    let key := record.message
    let counts := mapSet t.errorCounts key ((mapGet t.errorCounts key).getD 0 + 1)
    { t with errors := errors, errorCounts := counts }

/-- Fold `trackError` over a sequence of (timestamp, error) inputs. -/
def ETState.trackAll (t : ETState) (es : List (Nat × JsError)) : ETState :=
  es.foldl (fun st p => st.trackError p.1 p.2) t

/-- One entry of `getErrorSummary().topErrors`. -/
structure TopError where
  message : String
  count : Nat
deriving DecidableEq

/-- The record returned by `getErrorSummary`. -/
structure ErrorSummary where
  totalErrors : Nat
  recentErrors : List ErrorRecord
  topErrors : List TopError
deriving DecidableEq

/-- Stable insertion of a (message, count) pair in front of the first entry
whose count is not larger: together with `sortCnt` this realises the JS
stable `sort((a, b) => b[1] - a[1])`, descending by count with ties kept in
original (first-insertion) order. -/
def insertCnt (x : String × Nat) : List (String × Nat) → List (String × Nat)
  | [] => [x]
  | y :: ys => if y.2 ≤ x.2 then x :: y :: ys else y :: insertCnt x ys

/-- Stable descending-by-count sort of the counts map (JS
`Array.from(map.entries()).sort((a, b) => b[1] - a[1])`; JS `sort` is
stable). -/
def sortCnt : List (String × Nat) → List (String × Nat)
  | [] => []
  | x :: xs => insertCnt x (sortCnt xs)

/-- `ErrorTracker.getErrorSummary()`: total count, `errors.slice(-10)`, and
the five most frequent messages. -/
def ETState.getErrorSummary (t : ETState) : ErrorSummary :=
  { totalErrors := t.errors.length
    recentErrors := t.errors.drop (t.errors.length - 10)
    topErrors := ((sortCnt t.errorCounts).take 5).map fun p =>
      { message := p.1, count := p.2 } }

/-! ## HealthCheckSystem (src/shared/monitoring/health-check.js) -/

/-- Outcome of one invocation of a module's `check()` predicate: a returned
result object (whose `healthy` field may be absent) or a thrown/rejected
error. -/
inductive CheckOutcome where
  | ret (healthy : Option Bool) (metrics : List (String × Nat)) (message : Option String)
  | thrown (err : String)
deriving DecidableEq

/-- A status record as returned by `checkModule` (and cached in
`lastStatus`).  Fields that a given code path leaves undefined are `none`. -/
structure HStatus where
  name : String
  timestamp : Option Nat
  healthy : Option Bool
  metrics : List (String × Nat)
  message : Option String
  error : Option String
  checkDuration : Option Nat
  consecutiveFailures : Option Nat
deriving DecidableEq

/-- The registry entry of one registered module. -/
structure ModuleState where
  name : String
  lastCheck : Option Nat
  lastStatus : Option HStatus
  consecutiveFailures : Nat
deriving DecidableEq

/-- A freshly registered module (`registerModule`). -/
def ModuleState.registered (name : String) : ModuleState :=
  { name := name, lastCheck := none, lastStatus := none, consecutiveFailures := 0 }

/-- `HealthCheckSystem.checkModule(name)` on a registered module, given the
outcome of its `check()` and the two `Date.now()` readings `t0` (before) and
`t1` (after).  On a returned result, `healthy` is `result.healthy !== false`,
the status is cached in `lastCheck`/`lastStatus`, and the failure counter is
reset or incremented; on a thrown/rejected check only the failure counter is
touched and an error status is returned without being cached. -/
def checkModule (m : ModuleState) (outcome : CheckOutcome) (t0 t1 : Nat) :
    HStatus × ModuleState :=
  match outcome with
  | CheckOutcome.ret h met msg =>
    let healthy : Bool := h ≠ some false
    let status : HStatus :=
      { name := m.name, timestamp := some t1, healthy := some healthy, metrics := met
        message := msg, error := none, checkDuration := some (t1 - t0)
        consecutiveFailures := none }
    let m' :=
      { m with lastCheck := some t1, lastStatus := some status
               consecutiveFailures := if healthy then 0 else m.consecutiveFailures + 1 }
    (status, m')
  | CheckOutcome.thrown e =>
    let m' := { m with consecutiveFailures := m.consecutiveFailures + 1 }
    ({ name := m.name, timestamp := some t1, healthy := some false, metrics := []
       message := none, error := some e, checkDuration := none
       consecutiveFailures := some m'.consecutiveFailures }, m')

/-- Fold `checkModule` over a sequence of check outcomes (the timestamps are
irrelevant to the failure counter; `t` is used for every reading). -/
def checkSeq (m : ModuleState) (outcomes : List CheckOutcome) (t : Nat) : ModuleState :=
  outcomes.foldl (fun st oc => (checkModule st oc t t).2) m

/-- The per-module entry of `getLastStatus()`: the cached `lastStatus`, or a
`Not yet checked` placeholder with `healthy: null` when the module was never
successfully checked. -/
def getLastStatusEntry (m : ModuleState) : HStatus :=
  match m.lastStatus with
  | some st => st
  | none =>
    { name := m.name, timestamp := none, healthy := none, metrics := []
      message := some "Not yet checked", error := none, checkDuration := none
      consecutiveFailures := none }

/-! ## Helper lemmas: logger write emissions -/

/-- When the append succeeds and the level passes the gate, the records that
one `write` call delivers to a configured destination are exactly one copy of
the formatted entry. -/
theorem writeOut_filter (lg : Logger) (fs : FsState) (ts lvl : Nat) (msg : String)
    (meta : List (String × String)) (hfs : fs.appendOk = true)
    (hlvl : lvl ≤ lg.level) (d : Dest) (hd : d ∈ lg.outputs) :
    (lg.writeOut fs ts lvl msg meta).filter (emitsTo d)
      = [Emission.record d (formatMessage lg ts lvl msg meta)] := by
  have hnot : ¬ lg.level < lvl := Nat.not_lt.mpr hlvl
  cases d with
  | console =>
    simp only [Logger.writeOut, Logger.write, if_neg hnot, appendFileSync, hfs, if_pos hd,
      List.filter_append]
    by_cases hf : Dest.file ∈ lg.outputs <;>
      simp [hf, emitsTo, List.filter]
  | file =>
    simp only [Logger.writeOut, Logger.write, if_neg hnot, appendFileSync, hfs, if_pos hd,
      List.filter_append]
    by_cases hc : Dest.console ∈ lg.outputs <;>
      simp [hc, emitsTo, List.filter]

/-- Below the level gate, `write` emits nothing at all. -/
theorem writeOut_gate (lg : Logger) (fs : FsState) (ts lvl : Nat) (msg : String)
    (meta : List (String × String)) (hlvl : lg.level < lvl) :
    lg.writeOut fs ts lvl msg meta = [] := by
  simp [Logger.writeOut, Logger.write, if_pos hlvl]

/-! ## Claim theorems -/

/-- C2 (counterexample).  The claim says an uncreatable log directory during
construction is caught locally and never propagates; but `ensureLogDirectory`
has no try/catch, so on a filesystem where the directory is missing and
`mkdirSync` fails, the `Logger` constructor raises the exception into the
caller. -/
theorem claim2_counterexample :
    Logger.construct
        { level := none, module := none, outputs := none,
          maxLogSize := none, maxLogFiles := none }
        { dirExists := false, mkdirOk := false, appendOk := true }
      = Except.error "EACCES: cannot create log directory" := rfl

/-- C2 (amended).  An append failure during `write` is caught locally: `write`
never raises into the caller, and when the file destination is configured and
the append fails, the failure is reported on the console fallback channel.
An uncreatable log directory, however, is not caught: the constructor
propagates the `mkdirSync` exception to the caller. -/
theorem claim2_io_faults (lg : Logger) (cfg : LoggerCfg) (fs : FsState) (ts lvl : Nat)
    (msg : String) (meta : List (String × String)) :
    ((lg.write fs ts lvl msg meta).isOk = true)
    ∧ (fs.appendOk = false → Dest.file ∈ lg.outputs → lvl ≤ lg.level →
        Emission.fallback ("Failed to write to log file: " ++ "ENOSPC: append failed")
          ∈ lg.writeOut fs ts lvl msg meta)
    ∧ (fs.dirExists = false → fs.mkdirOk = false →
        Logger.construct cfg fs = Except.error "EACCES: cannot create log directory") := by
  refine ⟨?_, ?_, ?_⟩
  · unfold Logger.write
    split
    · rfl
    · rfl
  · intro hap hmem hlvl
    have hnot : ¬ lg.level < lvl := Nat.not_lt.mpr hlvl
    simp [Logger.writeOut, Logger.write, if_neg hnot, appendFileSync, hap, hmem]
  · intro h1 h2
    simp [Logger.construct, ensureLogDirectory, mkdirSync, h1, h2]

/-- C2 witness: the amended theorem applied to a concrete logger whose file
append fails, showing the fallback record and the propagated construction
error. -/
theorem claim2_io_faults_witness :
    (false = false) ∧
      Emission.fallback ("Failed to write to log file: " ++ "ENOSPC: append failed")
        ∈ Logger.writeOut
            { level := 2, module := "app", outputs := [Dest.file], maxLogSize := 100,
              maxLogFiles := 2 }
            { dirExists := true, mkdirOk := true, appendOk := false } 0 0 "boom" [] :=
  ⟨rfl,
    (claim2_io_faults
        { level := 2, module := "app", outputs := [Dest.file], maxLogSize := 100,
          maxLogFiles := 2 }
        { level := none, module := none, outputs := none, maxLogSize := none,
          maxLogFiles := none }
        { dirExists := true, mkdirOk := true, appendOk := false } 0 0 "boom" []).2.1
      rfl (by decide) (by decide)⟩

/-- C6.  An entry is delivered to each configured destination iff its numeric
level is at most the configured threshold: in that case each configured
destination receives exactly one record (the formatted entry), and below the
gate nothing is emitted at all; with threshold WARN (1) an `info` call (level
2) produces no output on any destination, while an `error` call (level 0)
produces on each configured destination exactly one record whose level field
is "ERROR". -/
theorem claim6_level_threshold (lg : Logger) (fs : FsState) (ts lvl : Nat)
    (msg : String) (meta : List (String × String)) (hfs : fs.appendOk = true) :
    (∀ d ∈ lg.outputs,
        ((lg.writeOut fs ts lvl msg meta).filter (emitsTo d) ≠ [] ↔ lvl ≤ lg.level))
    ∧ (∀ d ∈ lg.outputs, lvl ≤ lg.level →
        (lg.writeOut fs ts lvl msg meta).filter (emitsTo d)
          = [Emission.record d (formatMessage lg ts lvl msg meta)])
    ∧ (lg.level < lvl → lg.writeOut fs ts lvl msg meta = [])
    ∧ (lg.level = 1 → lg.level < lvl → lg.writeOut fs ts lvl msg meta = [])
    ∧ (lg.level = 1 → ∀ d ∈ lg.outputs,
        (lg.writeOut fs ts 0 msg meta).filter (emitsTo d)
            = [Emission.record d (formatMessage lg ts 0 msg meta)]
          ∧ (formatMessage lg ts 0 msg meta).level = "ERROR") := by
  refine ⟨?_, ?_, ?_, ?_, ?_⟩
  · intro d hd
    constructor
    · intro hne
      by_contra hgt
      have hlt : lg.level < lvl := Nat.not_le.mp hgt
      rw [writeOut_gate lg fs ts lvl msg meta hlt] at hne
      exact hne rfl
    · intro hle
      rw [writeOut_filter lg fs ts lvl msg meta hfs hle d hd]
      exact List.cons_ne_nil _ _
  · intro d hd hle
    exact writeOut_filter lg fs ts lvl msg meta hfs hle d hd
  · intro hlt
    exact writeOut_gate lg fs ts lvl msg meta hlt
  · intro _ hlt
    exact writeOut_gate lg fs ts lvl msg meta hlt
  · intro _ d hd
    refine ⟨writeOut_filter lg fs ts 0 msg meta hfs (Nat.zero_le _) d hd, rfl⟩

/-- C6 witness: the threshold-WARN logger on a working filesystem, applied at
the concrete `error` level. -/
theorem claim6_level_threshold_witness :
    (true = true) ∧
      (Logger.writeOut
          { level := 1, module := "app", outputs := [Dest.console], maxLogSize := 100,
            maxLogFiles := 2 }
          { dirExists := true, mkdirOk := true, appendOk := true } 0 0 "fail" []).filter
          (emitsTo Dest.console)
        = [Emission.record Dest.console
            (formatMessage
              { level := 1, module := "app", outputs := [Dest.console], maxLogSize := 100,
                maxLogFiles := 2 } 0 0 "fail" [])] :=
  ⟨rfl,
    ((claim6_level_threshold
        { level := 1, module := "app", outputs := [Dest.console], maxLogSize := 100,
          maxLogFiles := 2 }
        { dirExists := true, mkdirOk := true, appendOk := true } 0 0 "fail" []
        rfl).2.2.2.2 rfl Dest.console (by decide)).1⟩

/-- C9.  Constructing a `Logger` with the numeric ERROR level 0 as
`config.level` does not set the threshold to ERROR: JS `config.level ||
LogLevel.INFO` treats 0 as falsy, so the effective threshold becomes INFO (2)
and `info` (level 2) and `warn` (level 1) entries are still emitted; every
explicitly supplied level 1..4 is honoured as given. -/
theorem claim9_falsy_error_level (cfg : LoggerCfg) (fs : FsState) (ts : Nat)
    (msg : String) (meta : List (String × String)) :
    ((Logger.make { cfg with level := some 0 }).level = 2)
    ∧ (Logger.writeOut (Logger.make { cfg with level := some 0, outputs := some [Dest.console] })
        fs ts 2 msg meta ≠ [])
    ∧ (Logger.writeOut (Logger.make { cfg with level := some 0, outputs := some [Dest.console] })
        fs ts 1 msg meta ≠ [])
    ∧ (∀ l, 1 ≤ l → l ≤ 4 → (Logger.make { cfg with level := some l }).level = l) := by
  refine ⟨rfl, ?_, ?_, ?_⟩
  · simp [Logger.writeOut, Logger.write, Logger.make, jsOrNat]
  · simp [Logger.writeOut, Logger.write, Logger.make, jsOrNat]
  · intro l hl _
    have : l ≠ 0 := by omega
    simp [Logger.make, jsOrNat, this]

/-- C9 witness: the falsy-default applied to a concrete configuration,
showing the threshold and a still-emitted info entry. -/
theorem claim9_falsy_error_level_witness :
    ((Logger.make
        { level := some 0, module := none, outputs := none, maxLogSize := none,
          maxLogFiles := none }).level = 2)
    ∧ ((Logger.make
        { level := some 3, module := none, outputs := none, maxLogSize := none,
          maxLogFiles := none }).level = 3) :=
  ⟨(claim9_falsy_error_level
      { level := some 0, module := none, outputs := none, maxLogSize := none,
        maxLogFiles := none }
      { dirExists := true, mkdirOk := true, appendOk := true } 0 "hello" []).1,
    (claim9_falsy_error_level
      { level := some 3, module := none, outputs := none, maxLogSize := none,
        maxLogFiles := none }
      { dirExists := true, mkdirOk := true, appendOk := true } 0 "hello" []).2.2.2
      3 (by decide) (by decide)⟩

/-- C7.  The `checkModule` state machine: a returned result with missing
`healthy` field counts as healthy and resets the failure counter; a thrown or
rejected check yields a returned status with `healthy = false` carrying the
error and increments `consecutiveFailures`; any healthy result (anything but
an explicit `healthy: false`) resets the counter to zero; a module whose
check always returns unhealthy reaches `consecutiveFailures = 3` after three
checks, and one healthy result then resets it to 0. -/
theorem claim7_checkModule_state_machine :
    (∀ (m : ModuleState) (met : List (String × Nat)) (msg : Option String) (t0 t1 : Nat),
        (checkModule m (CheckOutcome.ret none met msg) t0 t1).1.healthy = some true
          ∧ (checkModule m (CheckOutcome.ret none met msg) t0 t1).2.consecutiveFailures = 0)
    ∧ (∀ (m : ModuleState) (e : String) (t0 t1 : Nat),
        (checkModule m (CheckOutcome.thrown e) t0 t1).1.healthy = some false
          ∧ (checkModule m (CheckOutcome.thrown e) t0 t1).1.error = some e
          ∧ (checkModule m (CheckOutcome.thrown e) t0 t1).2.consecutiveFailures
              = m.consecutiveFailures + 1)
    ∧ (∀ (m : ModuleState) (h : Option Bool) (met : List (String × Nat))
        (msg : Option String) (t0 t1 : Nat), h ≠ some false →
          (checkModule m (CheckOutcome.ret h met msg) t0 t1).2.consecutiveFailures = 0)
    ∧ (∀ (m : ModuleState) (met : List (String × Nat)) (msg : Option String) (t0 t1 : Nat),
        (checkModule m (CheckOutcome.ret (some false) met msg) t0 t1).2.consecutiveFailures
          = m.consecutiveFailures + 1)
    ∧ (∀ (name : String) (t : Nat),
        (checkSeq (ModuleState.registered name)
            [CheckOutcome.ret (some false) [] none, CheckOutcome.ret (some false) [] none,
             CheckOutcome.ret (some false) [] none] t).consecutiveFailures = 3
          ∧ (checkSeq (ModuleState.registered name)
              [CheckOutcome.ret (some false) [] none, CheckOutcome.ret (some false) [] none,
               CheckOutcome.ret (some false) [] none, CheckOutcome.ret (some true) [] none]
              t).consecutiveFailures = 0) := by
  refine ⟨?_, ?_, ?_, ?_, ?_⟩
  · intro m met msg t0 t1
    exact ⟨rfl, rfl⟩
  · intro m e t0 t1
    exact ⟨rfl, rfl, rfl⟩
  · intro m h met msg t0 t1 hne
    simp [checkModule, hne]
  · intro m met msg t0 t1
    rfl
  · intro name t
    exact ⟨rfl, rfl⟩

/-- C7 witness: the reset conjunct applied to a concrete module state with a
missing `healthy` field. -/
theorem claim7_checkModule_state_machine_witness :
    ((none : Option Bool) ≠ some false)
    ∧ (checkModule (ModuleState.registered "terminal") (CheckOutcome.ret none [] none)
        0 1).2.consecutiveFailures = 0 :=
  ⟨by decide,
    claim7_checkModule_state_machine.2.2.1 (ModuleState.registered "terminal") none [] none
      0 1 (by decide)⟩

/-- C10.  When a module's check throws or rejects, `checkModule` increments
`consecutiveFailures` and returns a `healthy = false` status, but leaves the
module's `lastCheck` and `lastStatus` fields unchanged, so `getLastStatus`
afterwards still reports the previous cached status — or the `Not yet
checked` placeholder with `healthy = null` if the module was never
successfully checked — never the failure status. -/
theorem claim10_thrown_check_frame (m : ModuleState) (e : String) (t0 t1 : Nat) :
    ((checkModule m (CheckOutcome.thrown e) t0 t1).2.lastCheck = m.lastCheck)
    ∧ ((checkModule m (CheckOutcome.thrown e) t0 t1).2.lastStatus = m.lastStatus)
    ∧ ((checkModule m (CheckOutcome.thrown e) t0 t1).2.consecutiveFailures
        = m.consecutiveFailures + 1)
    ∧ ((checkModule m (CheckOutcome.thrown e) t0 t1).1.healthy = some false)
    ∧ (getLastStatusEntry (checkModule m (CheckOutcome.thrown e) t0 t1).2
        = getLastStatusEntry m)
    ∧ (m.lastStatus = none →
        (getLastStatusEntry (checkModule m (CheckOutcome.thrown e) t0 t1).2).healthy = none
          ∧ (getLastStatusEntry (checkModule m (CheckOutcome.thrown e) t0 t1).2).message
              = some "Not yet checked") := by
  refine ⟨rfl, rfl, rfl, rfl, rfl, ?_⟩
  intro h0
  simp [getLastStatusEntry, checkModule, h0]

/-- C10 witness: a never-checked module whose check throws still reports the
placeholder status. -/
theorem claim10_thrown_check_frame_witness :
    ((ModuleState.registered "net").lastStatus = none)
    ∧ ((getLastStatusEntry
          (checkModule (ModuleState.registered "net") (CheckOutcome.thrown "boom")
            0 1).2).healthy = none
        ∧ (getLastStatusEntry
            (checkModule (ModuleState.registered "net") (CheckOutcome.thrown "boom")
              0 1).2).message = some "Not yet checked") :=
  ⟨rfl, (claim10_thrown_check_frame (ModuleState.registered "net") "boom" 0 1).2.2.2.2.2 rfl⟩

/-! ## Helper lemmas: bounded FIFO push (recordMetric / trackError) -/

/-- Dropping into the tail commutes with a trailing append, for a non-empty
front list. -/
theorem tail_append_drop {α : Type} (l xs : List α) (hl : l ≠ []) (n : Nat) :
    (l.tail ++ xs).drop n = (l ++ xs).drop (n + 1) := by
  cases l with
  | nil => exact absurd rfl hl
  | cons a l => simp [List.drop_succ_cons]

/-- Folding the push-then-shift step of `recordMetric`/`trackError` over a
sequence keeps exactly the last `cap` elements: the result is the suffix of
the accumulated sequence obtained by dropping everything but the final `cap`
entries. -/
theorem foldl_push_drop {α : Type} (cap : Nat) :
    ∀ (xs acc : List α), acc.length ≤ cap →
      xs.foldl (fun a x => if cap < (a ++ [x]).length then (a ++ [x]).tail else a ++ [x]) acc
        = (acc ++ xs).drop (acc.length + xs.length - cap) := by
  intro xs
  induction xs with
  | nil =>
    intro acc h
    simp [Nat.sub_eq_zero_of_le h]
  | cons x xs ih =>
    intro acc h
    rw [List.foldl_cons]
    by_cases hlt : cap < (acc ++ [x]).length
    · rw [if_pos hlt]
      have hcap : acc.length = cap := by
        simp only [List.length_append, List.length_cons, List.length_nil] at hlt
        omega
      have htl : (acc ++ [x]).tail.length ≤ cap := by
        simp only [List.length_tail, List.length_append, List.length_cons, List.length_nil]
        omega
      rw [ih _ htl]
      have hne : acc ++ [x] ≠ [] := by simp
      have hstep := tail_append_drop (acc ++ [x]) xs hne
        ((acc ++ [x]).tail.length + xs.length - cap)
      rw [hstep]
      have harr : acc ++ x :: xs = (acc ++ [x]) ++ xs := by simp
      rw [harr]
      congr 1
      simp only [List.length_tail, List.length_append, List.length_cons, List.length_nil,
        List.length_cons]
      omega
    · rw [if_neg hlt]
      have hle : (acc ++ [x]).length ≤ cap := Nat.not_lt.mp hlt
      rw [ih _ hle]
      have harr : acc ++ x :: xs = (acc ++ [x]) ++ xs := by simp
      rw [harr]
      congr 1
      simp only [List.length_append, List.length_cons, List.length_nil]
      omega

/-- `recordMetric` does not change the `enabled` flag. -/
theorem recordMetric_enabled (s : PMState) (name : String) (x : Sample) :
    (s.recordMetric name x).enabled = s.enabled := by
  unfold PMState.recordMetric
  split <;> rfl

/-- `recordMetric` does not change the sample cap. -/
theorem recordMetric_maxSamples (s : PMState) (name : String) (x : Sample) :
    (s.recordMetric name x).maxSamples = s.maxSamples := by
  unfold PMState.recordMetric
  split <;> rfl

/-- On an enabled monitor, `recordMetric` pushes the sample on the named
series and shifts once when the cap is exceeded. -/
theorem recordMetric_custom_self (s : PMState) (name : String) (x : Sample)
    (h : s.enabled = true) :
    (s.recordMetric name x).custom name
      = if s.maxSamples < (s.custom name ++ [x]).length
        then (s.custom name ++ [x]).tail else s.custom name ++ [x] := by
  simp [PMState.recordMetric, h]

/-- The series of an enabled monitor after a sequence of `recordMetric` calls
on one name is the bounded FIFO fold of the pushed samples. -/
theorem recordAll_custom (name : String) :
    ∀ (xs : List Sample) (s : PMState), s.enabled = true →
      (s.recordAll name xs).custom name
        = xs.foldl (fun a x =>
            if s.maxSamples < (a ++ [x]).length then (a ++ [x]).tail else a ++ [x])
          (s.custom name) := by
  intro xs
  induction xs with
  | nil =>
    intro s h
    rfl
  | cons x xs ih =>
    intro s h
    have h' : (s.recordMetric name x).enabled = true := by
      rw [recordMetric_enabled, h]
    have hstep : PMState.recordAll s name (x :: xs)
        = PMState.recordAll (s.recordMetric name x) name xs := rfl
    rw [hstep, ih _ h', recordMetric_maxSamples, recordMetric_custom_self s name x h,
      List.foldl_cons]

/-- On an enabled monitor with a positive cap, the sample just recorded is
the last element of the series. -/
theorem recordMetric_getLast (s : PMState) (name : String) (x : Sample)
    (h : s.enabled = true) (hcap : 1 ≤ s.maxSamples) :
    ((s.recordMetric name x).custom name).getLast? = some x := by
  rw [recordMetric_custom_self s name x h]
  split
  · next hlt =>
    have hne : s.custom name ≠ [] := by
      intro h0
      rw [h0] at hlt
      simp at hlt
      omega
    cases hc : s.custom name with
    | nil => exact absurd hc hne
    | cons a l => simp
  · simp

/-- `trackError` does not change the `enabled` flag. -/
theorem trackError_enabled (t : ETState) (ts : Nat) (e : JsError) :
    (t.trackError ts e).enabled = t.enabled := by
  unfold ETState.trackError
  split <;> rfl

/-- `trackError` does not change the history cap. -/
theorem trackError_maxErrors (t : ETState) (ts : Nat) (e : JsError) :
    (t.trackError ts e).maxErrors = t.maxErrors := by
  unfold ETState.trackError
  split <;> rfl

/-- On an enabled tracker, `trackError` pushes the normalised record and
shifts once when the history exceeds the cap. -/
theorem trackError_errors (t : ETState) (ts : Nat) (e : JsError)
    (h : t.enabled = true) :
    (t.trackError ts e).errors
      = if t.maxErrors < (t.errors ++ [normRecord ts e]).length
        then (t.errors ++ [normRecord ts e]).tail else t.errors ++ [normRecord ts e] := by
  simp [ETState.trackError, h]

/-- The error history of an enabled tracker after a sequence of `trackError`
calls is the bounded FIFO fold of the pushed normalised records. -/
theorem trackAll_errors :
    ∀ (es : List (Nat × JsError)) (t : ETState), t.enabled = true →
      (t.trackAll es).errors
        = (es.map fun p => normRecord p.1 p.2).foldl (fun a x =>
            if t.maxErrors < (a ++ [x]).length then (a ++ [x]).tail else a ++ [x])
          t.errors := by
  intro es
  induction es with
  | nil =>
    intro t h
    rfl
  | cons p es ih =>
    intro t h
    have h' : (t.trackError p.1 p.2).enabled = true := by
      rw [trackError_enabled, h]
    have hstep : ETState.trackAll t (p :: es)
        = ETState.trackAll (t.trackError p.1 p.2) es := rfl
    rw [hstep, ih _ h', trackError_maxErrors, trackError_errors t p.1 p.2 h,
      List.map_cons, List.foldl_cons]

/-- C3.  Bounded collections are FIFO: starting from a fresh series, any
sequence of `recordMetric` calls on one name leaves exactly the most recent
`maxSamples` samples in their original order (the series is the suffix of
the pushed sequence of the cap's length once the cap is exceeded), and the
error history of `trackError` is likewise the suffix of the normalised
records and never exceeds its cap. -/
theorem claim3_bounded_fifo (s : PMState) (t : ETState) (name : String)
    (xs : List Sample) (es : List (Nat × JsError))
    (hs : s.enabled = true) (hs0 : s.custom name = [])
    (ht : t.enabled = true) (ht0 : t.errors = []) :
    ((s.recordAll name xs).custom name = xs.drop (xs.length - s.maxSamples))
    ∧ (s.maxSamples ≤ xs.length →
        ((s.recordAll name xs).custom name).length = s.maxSamples)
    ∧ ((s.recordAll name xs).custom name <:+ xs)
    ∧ ((t.trackAll es).errors
        = (es.map fun p => normRecord p.1 p.2).drop (es.length - t.maxErrors))
    ∧ ((t.trackAll es).errors.length ≤ t.maxErrors) := by
  have hrec : (s.recordAll name xs).custom name = xs.drop (xs.length - s.maxSamples) := by
    rw [recordAll_custom name xs s hs, hs0,
      foldl_push_drop s.maxSamples xs [] (by simp)]
    simp
  have htrk : (t.trackAll es).errors
      = (es.map fun p => normRecord p.1 p.2).drop (es.length - t.maxErrors) := by
    rw [trackAll_errors es t ht, ht0,
      foldl_push_drop t.maxErrors (es.map fun p => normRecord p.1 p.2) [] (by simp)]
    simp
  refine ⟨hrec, ?_, ?_, htrk, ?_⟩
  · intro hcap
    rw [hrec, List.length_drop]
    omega
  · rw [hrec]
    exact List.drop_suffix _ _
  · rw [htrk, List.length_drop, List.length_map]
    omega

/-- C3 witness: a cap-2 monitor series after three pushes holds the last two
samples, applied from the general theorem. -/
theorem claim3_bounded_fifo_witness :
    (({ enabled := true, maxSamples := 2, custom := fun _ => [] } : PMState).custom "m" = [])
    ∧ (PMState.recordAll { enabled := true, maxSamples := 2, custom := fun _ => [] } "m"
          [⟨0, 1, false⟩, ⟨1, 2, false⟩, ⟨2, 3, false⟩]).custom "m"
        = ([⟨0, 1, false⟩, ⟨1, 2, false⟩, ⟨2, 3, false⟩] : List Sample).drop (3 - 2) :=
  ⟨rfl,
    (claim3_bounded_fifo { enabled := true, maxSamples := 2, custom := fun _ => [] }
      { enabled := true, maxErrors := 1, errors := [], errorCounts := [] } "m"
      [⟨0, 1, false⟩, ⟨1, 2, false⟩, ⟨2, 3, false⟩] [] rfl rfl rfl rfl).1⟩

/-- C4.  `measure` and `measureAsync` re-raise a failing operation's original
failure value unchanged and return a successful operation's result unchanged;
in both cases a sample is recorded under the name, with a non-negative
duration, flagged with `error: true` exactly on the failure path. -/
theorem claim4_measure_reraise (ε α : Type) (s : PMState) (name : String)
    (t0 t1 : ℚ) (ts : Nat) (outcome : Except ε α)
    (hs : s.enabled = true) (hcap : 1 ≤ s.maxSamples) (hmono : t0 ≤ t1) :
    ((s.measure name t0 t1 ts outcome).1 = outcome)
    ∧ ((s.measureAsync name t0 t1 ts outcome).1 = outcome)
    ∧ (0 ≤ t1 - t0)
    ∧ (∀ e, outcome = Except.error e →
        ((s.measure name t0 t1 ts outcome).2.1.custom name).getLast?
            = some { timestamp := ts, value := t1 - t0, err := true }
          ∧ ((s.measureAsync name t0 t1 ts outcome).2.1.custom name).getLast?
              = some { timestamp := ts, value := t1 - t0, err := true })
    ∧ (∀ a, outcome = Except.ok a →
        ((s.measure name t0 t1 ts outcome).2.1.custom name).getLast?
            = some { timestamp := ts, value := t1 - t0, err := false }
          ∧ ((s.measureAsync name t0 t1 ts outcome).2.1.custom name).getLast?
              = some { timestamp := ts, value := t1 - t0, err := false }) := by
  refine ⟨?_, ?_, sub_nonneg.mpr hmono, ?_, ?_⟩
  · cases outcome <;> rfl
  · cases outcome <;> rfl
  · intro e he
    subst he
    exact ⟨recordMetric_getLast s name _ hs hcap, recordMetric_getLast s name _ hs hcap⟩
  · intro a ha
    subst ha
    exact ⟨recordMetric_getLast s name _ hs hcap, recordMetric_getLast s name _ hs hcap⟩

/-- C4 witness: a throwing operation measured on a concrete monitor records
an error-flagged sample and re-raises. -/
theorem claim4_measure_reraise_witness :
    (PMState.measure { enabled := true, maxSamples := 2, custom := fun _ => [] } "op"
        0 5 7 (Except.error "boom" : Except String Nat)).1
      = Except.error "boom"
    ∧ ((PMState.measure { enabled := true, maxSamples := 2, custom := fun _ => [] } "op"
          0 5 7 (Except.error "boom" : Except String Nat)).2.1.custom "op").getLast?
        = some { timestamp := 7, value := 5 - 0, err := true } :=
  ⟨(claim4_measure_reraise String Nat
      { enabled := true, maxSamples := 2, custom := fun _ => [] } "op" 0 5 7
      (Except.error "boom") rfl (by decide) (by norm_num)).1,
    ((claim4_measure_reraise String Nat
        { enabled := true, maxSamples := 2, custom := fun _ => [] } "op" 0 5 7
        (Except.error "boom") rfl (by decide) (by norm_num)).2.2.2.1 "boom" rfl).1⟩

/-! ## Helper lemmas: percentile index arithmetic -/

/-- The floor of `n * (a / b)` over ℚ is the Nat division `n * a / b`: the
percentile indices of `calculateStats` are exactly
`Math.floor(length * percentile)`. -/
theorem floor_mul_div (n a b : Nat) :
    Nat.floor ((n : ℚ) * ((a : ℚ) / (b : ℚ))) = n * a / b := by
  rw [← mul_div_assoc, ← Nat.cast_mul, Nat.floor_div_nat, Nat.floor_natCast]

/-- C5.  `calculateStats` returns a null result for an absent or empty
series; for a non-empty series the median, p95 and p99 are the elements of
the ascending sort of the values at indices `floor(length * 1/2)`,
`floor(length * 95/100)` and `floor(length * 99/100)` (where `sortAsc` is a
sorted permutation of the values); and for a single-sample series with value
`v`, min, max, avg, median, p95 and p99 all equal `v` and the count is 1. -/
theorem claim5_calculateStats (s : List Sample) (x : Sample) (hs : s ≠ []) :
    (calculateStats none = none)
    ∧ (calculateStats (some []) = none)
    ∧ (∃ st, calculateStats (some s) = some st
        ∧ st.count = s.length
        ∧ st.median = (sortAsc (s.map Sample.value)).getD
            (Nat.floor ((s.length : ℚ) * ((1 : ℚ) / (2 : ℚ)))) 0
        ∧ st.p95 = (sortAsc (s.map Sample.value)).getD
            (Nat.floor ((s.length : ℚ) * ((95 : ℚ) / (100 : ℚ)))) 0
        ∧ st.p99 = (sortAsc (s.map Sample.value)).getD
            (Nat.floor ((s.length : ℚ) * ((99 : ℚ) / (100 : ℚ)))) 0
        ∧ List.Sorted (· ≤ ·) (sortAsc (s.map Sample.value))
        ∧ (sortAsc (s.map Sample.value)).Perm (s.map Sample.value))
    ∧ (calculateStats (some [x]) = some
        { min := x.value, max := x.value, avg := x.value, median := x.value,
          p95 := x.value, p99 := x.value, count := 1 }) := by
  refine ⟨rfl, rfl, ?_, ?_⟩
  · have hlen : s.length ≠ 0 := by
      intro h0
      exact hs (List.length_eq_zero.mp h0)
    have hlensort : (sortAsc (s.map Sample.value)).length = s.length := by
      simp [sortAsc, List.length_insertionSort, List.length_map]
    refine ⟨Stats.mk (listMin (s.map Sample.value)) (listMax (s.map Sample.value))
        (listSum (s.map Sample.value) / (((s.map Sample.value).length : Nat) : ℚ))
        ((sortAsc (s.map Sample.value)).getD ((sortAsc (s.map Sample.value)).length / 2) 0)
        ((sortAsc (s.map Sample.value)).getD
          ((sortAsc (s.map Sample.value)).length * 95 / 100) 0)
        ((sortAsc (s.map Sample.value)).getD
          ((sortAsc (s.map Sample.value)).length * 99 / 100) 0)
        ((s.map Sample.value).length), ?_, ?_, ?_, ?_, ?_, ?_, ?_⟩
    · simp only [calculateStats, if_neg hlen]
    · simp
    · have h2 := floor_mul_div s.length 1 2
      push_cast at h2
      rw [h2]
      simp only [hlensort, Nat.mul_one]
    · have h95 := floor_mul_div s.length 95 100
      push_cast at h95
      rw [h95]
      simp only [hlensort]
    · have h99 := floor_mul_div s.length 99 100
      push_cast at h99
      rw [h99]
      simp only [hlensort]
    · exact List.sorted_insertionSort _ _
    · exact List.perm_insertionSort _ _
  · simp only [calculateStats, List.length_cons, List.length_nil]
    norm_num [listMin, listMax, listSum, sortAsc, List.insertionSort, List.orderedInsert]

/-- C5 witness: the single-sample case at a concrete sample, via the general
theorem. -/
theorem claim5_calculateStats_witness :
    (([⟨0, 42, false⟩] : List Sample) ≠ [])
    ∧ calculateStats (some [(⟨0, 42, false⟩ : Sample)])
        = some { min := 42, max := 42, avg := 42, median := 42, p95 := 42, p99 := 42,
                 count := 1 } :=
  ⟨by decide,
    (claim5_calculateStats [⟨0, 42, false⟩] ⟨0, 42, false⟩ (by decide)).2.2.2⟩

/-! ## Helper lemmas: stable descending sort of the error counts -/

/-- `insertCnt` inserts its element somewhere: the result is a permutation of
consing it. -/
theorem insertCnt_perm (x : String × Nat) :
    ∀ l : List (String × Nat), (insertCnt x l).Perm (x :: l) := by
  intro l
  induction l with
  | nil => exact List.Perm.refl _
  | cons y ys ih =>
    by_cases hc : y.2 ≤ x.2
    · simp [insertCnt, hc]
    · simp only [insertCnt, if_neg hc]
      exact (ih.cons y).trans (List.Perm.swap x y ys)

/-- `sortCnt` permutes the counts map. -/
theorem sortCnt_perm : ∀ l : List (String × Nat), (sortCnt l).Perm l := by
  intro l
  induction l with
  | nil => exact List.Perm.refl _
  | cons x xs ih =>
    exact (insertCnt_perm x (sortCnt xs)).trans (ih.cons x)

/-- `insertCnt` preserves descending-by-count sortedness. -/
theorem insertCnt_sorted (x : String × Nat) :
    ∀ l : List (String × Nat), l.Pairwise (fun a b => b.2 ≤ a.2) →
      (insertCnt x l).Pairwise (fun a b => b.2 ≤ a.2) := by
  intro l
  induction l with
  | nil =>
    intro _
    simp [insertCnt]
  | cons y ys ih =>
    intro h
    rw [List.pairwise_cons] at h
    by_cases hc : y.2 ≤ x.2
    · simp only [insertCnt, if_pos hc]
      rw [List.pairwise_cons]
      refine ⟨?_, List.pairwise_cons.mpr h⟩
      intro b hb
      rcases List.mem_cons.mp hb with hby | hbys
      · rw [hby]
        exact hc
      · exact le_trans (h.1 b hbys) hc
    · simp only [insertCnt, if_neg hc]
      rw [List.pairwise_cons]
      refine ⟨?_, ih h.2⟩
      intro b hb
      have hb' : b ∈ x :: ys := (insertCnt_perm x ys).mem_iff.mp hb
      rcases List.mem_cons.mp hb' with hbx | hbys
      · rw [hbx]
        exact le_of_lt (Nat.lt_of_not_le hc)
      · exact h.1 b hbys

/-- `sortCnt` produces a descending-by-count list. -/
theorem sortCnt_sorted : ∀ l : List (String × Nat),
    (sortCnt l).Pairwise (fun a b => b.2 ≤ a.2) := by
  intro l
  induction l with
  | nil => simp [sortCnt]
  | cons x xs ih => exact insertCnt_sorted x (sortCnt xs) ih

/-- Inserting an element whose count differs from `c` does not change the
count-`c` entries. -/
theorem insertCnt_filter_ne (x : String × Nat) (c : Nat) (hx : ¬ x.2 = c) :
    ∀ l : List (String × Nat),
      (insertCnt x l).filter (fun p => p.2 = c) = l.filter fun p => p.2 = c := by
  intro l
  induction l with
  | nil => simp [insertCnt, hx]
  | cons y ys ih =>
    by_cases hc : y.2 ≤ x.2
    · simp [insertCnt, hc, hx]
    · simp only [insertCnt, if_neg hc]
      by_cases hy : y.2 = c <;> simp [List.filter_cons, hy, ih]

/-- Inserting an element of count `c` into a descending-sorted list places it
in front of every other count-`c` entry (this is the stability of the
insertion: the new element was the earliest in the original order among its
ties). -/
theorem insertCnt_filter_eq (x : String × Nat) (c : Nat) (hx : x.2 = c) :
    ∀ l : List (String × Nat), l.Pairwise (fun a b => b.2 ≤ a.2) →
      (insertCnt x l).filter (fun p => p.2 = c)
        = x :: l.filter fun p => p.2 = c := by
  subst hx
  intro l
  induction l with
  | nil => simp [insertCnt]
  | cons y ys ih =>
    intro h
    rw [List.pairwise_cons] at h
    by_cases hc : y.2 ≤ x.2
    · simp [insertCnt, hc]
    · have hy : ¬ y.2 = x.2 := by
        intro hyc
        exact hc (by omega)
      simp only [insertCnt, if_neg hc]
      rw [List.filter_cons_of_neg (by simpa using hy), ih h.2,
        List.filter_cons_of_neg (by simpa using hy)]

/-- Stability of `sortCnt`: among entries with equal counts, the sorted list
keeps the original order (their filtered subsequences coincide), so ties are
broken by earliest first occurrence in the counts map. -/
theorem sortCnt_filter (c : Nat) : ∀ l : List (String × Nat),
    (sortCnt l).filter (fun p => p.2 = c) = l.filter fun p => p.2 = c := by
  intro l
  induction l with
  | nil => rfl
  | cons x xs ih =>
    by_cases hx : x.2 = c
    · rw [show sortCnt (x :: xs) = insertCnt x (sortCnt xs) from rfl,
        insertCnt_filter_eq x c hx (sortCnt xs) (sortCnt_sorted xs), ih,
        List.filter_cons_of_pos (by simpa using hx)]
    · rw [show sortCnt (x :: xs) = insertCnt x (sortCnt xs) from rfl,
        insertCnt_filter_ne x c hx (sortCnt xs), ih,
        List.filter_cons_of_neg (by simpa using hx)]

/-! ## Helper lemmas: repeated identical errors -/

/-- `trackError` on an enabled tracker whose counts map holds exactly the
message being tracked with count `k` bumps it to `k + 1`. -/
theorem trackError_counts_single (t : ETState) (ts : Nat) (e : JsError) (k : Nat)
    (h : t.enabled = true) (hc : t.errorCounts = [(jsOrStr e.message e.str, k)]) :
    (t.trackError ts e).errorCounts = [(jsOrStr e.message e.str, k + 1)] := by
  simp [ETState.trackError, h, hc, normRecord, mapGet, mapSet]

/-- `trackError` on an enabled tracker with empty counts creates the entry
with count 1. -/
theorem trackError_counts_empty (t : ETState) (ts : Nat) (e : JsError)
    (h : t.enabled = true) (hc : t.errorCounts = []) :
    (t.trackError ts e).errorCounts = [(jsOrStr e.message e.str, 1)] := by
  simp [ETState.trackError, h, hc, normRecord, mapGet, mapSet]

/-- Tracking the same error `n` more times on a tracker whose counts map is
exactly the one entry at `k` yields the one entry at `k + n`. -/
theorem trackAll_counts_single (ts : Nat) (e : JsError) :
    ∀ (n : Nat) (t : ETState) (k : Nat), t.enabled = true →
      t.errorCounts = [(jsOrStr e.message e.str, k)] →
      (t.trackAll (List.replicate n (ts, e))).errorCounts
        = [(jsOrStr e.message e.str, k + n)] := by
  intro n
  induction n with
  | zero =>
    intro t k h hc
    simpa using hc
  | succ m ih =>
    intro t k h hc
    have hstep : ETState.trackAll t (List.replicate (m + 1) (ts, e))
        = ETState.trackAll (t.trackError ts e) (List.replicate m (ts, e)) := by
      rw [List.replicate_succ]
      rfl
    rw [hstep, ih (t.trackError ts e) (k + 1) (by rw [trackError_enabled, h])
      (trackError_counts_single t ts e k h hc)]
    congr 1
    congr 1
    omega

/-- C8.  `getErrorSummary` returns the total stored error count, the last 10
records in order (a suffix of the history of length `min 10 total`), and the
top 5 messages by frequency: the first five entries of a descending-by-count
permutation of the counts map in which ties keep their original
(first-occurrence) order, so that every message left out has a count at most
that of every message kept; and after `n` `trackError` calls with the same
message on a fresh tracker, `errorCounts[message] == n` and the message
appears in `topErrors` with count `n`. -/
theorem claim8_error_summary (t u : ETState) (n ts : Nat) (e : JsError)
    (hu : u.enabled = true) (hu0 : u.errorCounts = []) (hn : 1 ≤ n) :
    (t.getErrorSummary.totalErrors = t.errors.length)
    ∧ (t.getErrorSummary.recentErrors = t.errors.drop (t.errors.length - 10))
    ∧ (t.getErrorSummary.recentErrors.length = min 10 t.errors.length)
    ∧ (t.getErrorSummary.recentErrors <:+ t.errors)
    ∧ (t.getErrorSummary.topErrors
        = ((sortCnt t.errorCounts).take 5).map fun p => { message := p.1, count := p.2 })
    ∧ ((sortCnt t.errorCounts).Perm t.errorCounts)
    ∧ ((sortCnt t.errorCounts).Pairwise fun a b => b.2 ≤ a.2)
    ∧ (∀ p ∈ (sortCnt t.errorCounts).take 5, ∀ q ∈ (sortCnt t.errorCounts).drop 5,
        q.2 ≤ p.2)
    ∧ (∀ c, (sortCnt t.errorCounts).filter (fun p => p.2 = c)
        = t.errorCounts.filter fun p => p.2 = c)
    ∧ (mapGet (u.trackAll (List.replicate n (ts, e))).errorCounts
        (jsOrStr e.message e.str) = some n)
    ∧ (TopError.mk (jsOrStr e.message e.str) n
        ∈ (u.trackAll (List.replicate n (ts, e))).getErrorSummary.topErrors) := by
  have hcounts : (u.trackAll (List.replicate n (ts, e))).errorCounts
      = [(jsOrStr e.message e.str, n)] := by
    have hn' : n = 1 + (n - 1) := by omega
    rw [hn', List.replicate_add]
    have hstep : ETState.trackAll u (List.replicate 1 (ts, e) ++ List.replicate (n - 1) (ts, e))
        = ETState.trackAll (u.trackError ts e) (List.replicate (n - 1) (ts, e)) := by
      rfl
    rw [hstep, trackAll_counts_single ts e (n - 1) (u.trackError ts e) 1
      (by rw [trackError_enabled, hu]) (trackError_counts_empty u ts e hu hu0)]
  refine ⟨rfl, rfl, ?_, ?_, rfl, sortCnt_perm _, sortCnt_sorted _, ?_,
    fun c => sortCnt_filter c _, ?_, ?_⟩
  · simp only [ETState.getErrorSummary, List.length_drop]
    omega
  · exact List.drop_suffix _ _
  · intro p hp q hq
    have hpair := sortCnt_sorted t.errorCounts
    rw [← List.take_append_drop 5 (sortCnt t.errorCounts)] at hpair
    exact (List.pairwise_append.mp hpair).2.2 p hp q hq
  · rw [hcounts]
    simp [mapGet]
  · rw [ETState.getErrorSummary, hcounts]
    simp [sortCnt, insertCnt]

/-- C8 witness: three identical errors on a fresh tracker give count 3 and a
top entry of count 3. -/
theorem claim8_error_summary_witness :
    (true = true) ∧ (([] : List (String × Nat)) = []) ∧ (1 ≤ 3)
    ∧ mapGet
        (ETState.trackAll { enabled := true, maxErrors := 100, errors := [], errorCounts := [] }
          (List.replicate 3 (0, ({ message := some "oops", str := "Error: oops", type := none }
            : JsError)))).errorCounts
        (jsOrStr (some "oops") "Error: oops") = some 3 :=
  ⟨rfl, rfl, by decide,
    (claim8_error_summary
      { enabled := true, maxErrors := 100, errors := [], errorCounts := [] }
      { enabled := true, maxErrors := 100, errors := [], errorCounts := [] } 3 0
      { message := some "oops", str := "Error: oops", type := none }
      rfl rfl (by decide)).2.2.2.2.2.2.2.2.2.1⟩

/-! ## Helper lemmas: rotation keeps the generation indices bounded -/

/-- One loop iteration at an index in `[1, maxLogFiles - 1]` keeps every
generation index in `[1, max (maxLogFiles - 1) 1]`. -/
theorem rotateIter_bound {N : Nat} {g : Finset Nat} {i : Nat}
    (h : ∀ j ∈ g, 1 ≤ j ∧ j ≤ max (N - 1) 1) (hi1 : 1 ≤ i) (hi2 : i ≤ N - 1) :
    ∀ j ∈ (rotateIter N g i).1, 1 ≤ j ∧ j ≤ max (N - 1) 1 := by
  intro j hj
  unfold rotateIter at hj
  by_cases hmem : i ∈ g
  · rw [if_pos hmem] at hj
    by_cases htop : i = N - 1
    · rw [if_pos htop] at hj
      exact h j (Finset.mem_of_mem_erase hj)
    · rw [if_neg htop] at hj
      rcases Finset.mem_insert.mp hj with hji | hje
      · subst hji
        constructor
        · omega
        · have : i < N - 1 := by omega
          omega
      · exact h j (Finset.mem_of_mem_erase hje)
  · rw [if_neg hmem] at hj
    exact h j hj

/-- The whole rotation loop, run from any start index at most
`maxLogFiles - 1`, keeps every generation index in
`[1, max (maxLogFiles - 1) 1]`. -/
theorem rotateLoop_bound {N : Nat} :
    ∀ (k : Nat) (g : Finset Nat), k ≤ N - 1 →
      (∀ j ∈ g, 1 ≤ j ∧ j ≤ max (N - 1) 1) →
      ∀ j ∈ (rotateLoop N k g).1, 1 ≤ j ∧ j ≤ max (N - 1) 1 := by
  intro k
  induction k with
  | zero =>
    intro g _ h
    exact h
  | succ i ih =>
    intro g hk h
    exact ih _ (by omega) (rotateIter_bound h (by omega) hk)

/-- Equation: no active file means no rotation. -/
theorem rotateLogs_none {mS N : Nat} {fs : LogFS} (h : fs.activeSize = none) :
    rotateLogs mS N fs = (fs, []) := by
  simp [rotateLogs, h]

/-- Equation: an active file within the size budget means no rotation. -/
theorem rotateLogs_under {mS N : Nat} {fs : LogFS} {sz : Nat}
    (h : fs.activeSize = some sz) (hsz : ¬ mS < sz) :
    rotateLogs mS N fs = (fs, []) := by
  simp [rotateLogs, h, hsz]

/-- Equation: an over-sized active file triggers the rotation. -/
theorem rotateLogs_over {mS N : Nat} {fs : LogFS} {sz : Nat}
    (h : fs.activeSize = some sz) (hsz : mS < sz) :
    rotateLogs mS N fs
      = ({ activeSize := none, gens := insert 1 (rotateLoop N (N - 1) fs.gens).1 },
          (rotateLoop N (N - 1) fs.gens).2) := by
  simp [rotateLogs, h, hsz]

/-- `rotateLogs` preserves the generation-index invariant. -/
theorem rotateLogs_bound {mS N : Nat} {fs : LogFS} (h : GensBounded N fs) :
    GensBounded N (rotateLogs mS N fs).1 := by
  cases hact : fs.activeSize with
  | none => rw [rotateLogs_none hact]; exact h
  | some sz =>
    by_cases hover : mS < sz
    · rw [rotateLogs_over hact hover]
      intro j hj
      rcases Finset.mem_insert.mp hj with hj1 | hjl
      · subst hj1
        exact ⟨Nat.le_refl 1, Nat.le_max_right _ _⟩
      · exact rotateLoop_bound (N - 1) fs.gens (Nat.le_refl _) h j hjl
    · rw [rotateLogs_under hact hover]
      exact h

/-- Every directory operation preserves the generation-index invariant. -/
theorem step_bound {mS N : Nat} {fs : LogFS} (op : LogOp) (h : GensBounded N fs) :
    GensBounded N (LogFS.step mS N fs op) := by
  cases op with
  | append sz => exact h
  | rotateCheck => exact rotateLogs_bound h

/-- Any run from the empty directory satisfies the generation-index
invariant. -/
theorem run_bound (mS N : Nat) (ops : List LogOp) :
    GensBounded N (LogFS.run mS N ops) := by
  have hgen : ∀ (l : List LogOp) (fs : LogFS), GensBounded N fs →
      GensBounded N (l.foldl (LogFS.step mS N) fs) := by
    intro l
    induction l with
    | nil =>
      intro fs h
      exact h
    | cons op l ih =>
      intro fs h
      exact ih _ (step_bound op h)
  refine hgen ops LogFS.empty ?_
  intro j hj
  simp [LogFS.empty] at hj

/-- A bounded generation set has at most `max (maxLogFiles - 1) 1` members. -/
theorem gens_card_le {N : Nat} {fs : LogFS} (h : GensBounded N fs) :
    fs.gens.card ≤ max (N - 1) 1 := by
  have hsub : fs.gens ⊆ Finset.Icc 1 (max (N - 1) 1) := by
    intro j hj
    rcases h j hj with ⟨h1, h2⟩
    exact Finset.mem_Icc.mpr ⟨h1, h2⟩
  calc fs.gens.card ≤ (Finset.Icc 1 (max (N - 1) 1)).card := Finset.card_le_card hsub
    _ = max (N - 1) 1 := by rw [Nat.card_Icc]; omega

/-- Loop iterations strictly below `maxLogFiles - 1` never delete. -/
theorem rotateLoop_del_nil {N : Nat} :
    ∀ (k : Nat) (g : Finset Nat), k ≤ N - 2 → (rotateLoop N k g).2 = [] := by
  intro k
  induction k with
  | zero =>
    intro g _
    rfl
  | succ i ih =>
    intro g hk
    have hne : ¬ (i + 1 = N - 1) := by omega
    show ((rotateIter N g (i + 1)).2 ++ (rotateLoop N i (rotateIter N g (i + 1)).1).2) = []
    rw [ih _ (by omega), List.append_nil]
    unfold rotateIter
    by_cases hmem : (i + 1) ∈ g
    · rw [if_pos hmem, if_neg hne]
    · rw [if_neg hmem]

/-- The full rotation loop deletes exactly `edex-ui.log.(maxLogFiles - 1)`,
and only when that file exists. -/
theorem rotateLoop_del_top {N : Nat} (hN : 2 ≤ N) (g : Finset Nat) :
    (rotateLoop N (N - 1) g).2 = if N - 1 ∈ g then [N - 1] else [] := by
  have hrep : N - 1 = (N - 2) + 1 := by omega
  rw [hrep]
  show ((rotateIter N g ((N - 2) + 1)).2
      ++ (rotateLoop N (N - 2) (rotateIter N g ((N - 2) + 1)).1).2)
    = if (N - 2) + 1 ∈ g then [(N - 2) + 1] else []
  rw [rotateLoop_del_nil (N - 2) _ (Nat.le_refl _), List.append_nil]
  have htop : (N - 2) + 1 = N - 1 := by omega
  unfold rotateIter
  by_cases hmem : (N - 2) + 1 ∈ g
  · rw [htop] at hmem
    simp [hmem, htop]
  · simp [hmem]

/-- Whenever a rotation deletes a file, the deleted file is a present
generation and is at least as old (as large an index) as every generation
present. -/
theorem rotateLogs_del {mS N : Nat} {fs : LogFS} (hN : 2 ≤ N) (h : GensBounded N fs) :
    ∀ d ∈ (rotateLogs mS N fs).2, d ∈ fs.gens ∧ ∀ j ∈ fs.gens, j ≤ d := by
  intro d hd
  cases hact : fs.activeSize with
  | none =>
    rw [rotateLogs_none hact] at hd
    simp at hd
  | some sz =>
    by_cases hover : mS < sz
    · rw [rotateLogs_over hact hover] at hd
      simp only at hd
      rw [rotateLoop_del_top hN fs.gens] at hd
      by_cases hmem : N - 1 ∈ fs.gens
      · rw [if_pos hmem] at hd
        have hdeq : d = N - 1 := by
          rcases List.mem_singleton.mp hd with h
          exact h
        subst hdeq
        refine ⟨hmem, ?_⟩
        intro j hj
        have hj2 := (h j hj).2
        have : max (N - 1) 1 = N - 1 := by omega
        omega
      · rw [if_neg hmem] at hd
        simp at hd
    · rw [rotateLogs_under hact hover] at hd
      simp at hd

/-- C1.  Log rotation retains at most the configured number of generations:
for every `maxLogFiles = N ≥ 1` and any sequence of appends and rotation
checks from an empty directory, every present generation index lies in
`[1, max (N-1) 1]`, so at most `N` historical generations (in fact at most
`max (N-1) 1`) are retained, the generations being numbered by increasing
age; whenever a rotation deletes a file it deletes exactly the oldest
(highest-numbered) present generation; and with `maxLogFiles = 2` (and any
`maxLogSize`, e.g. 100 bytes) any sequence of writes and rotation checks
leaves at most 3 files on disk (the active file plus the generations). -/
theorem claim1_rotation_retention (maxLogSize N : Nat) (hN : 1 ≤ N) :
    (∀ ops, GensBounded N (LogFS.run maxLogSize N ops))
    ∧ (∀ ops, (LogFS.run maxLogSize N ops).gens.card ≤ N)
    ∧ (2 ≤ N → ∀ fs, GensBounded N fs →
        ∀ d ∈ (rotateLogs maxLogSize N fs).2, d ∈ fs.gens ∧ ∀ j ∈ fs.gens, j ≤ d)
    ∧ (∀ ops, LogFS.fileCount (LogFS.run maxLogSize 2 ops) ≤ 3) := by
  refine ⟨fun ops => run_bound maxLogSize N ops, ?_, ?_, ?_⟩
  · intro ops
    have hcard := gens_card_le (run_bound maxLogSize N ops)
    omega
  · intro h2 fs hfs
    exact rotateLogs_del h2 hfs
  · intro ops
    have hcard := gens_card_le (run_bound maxLogSize 2 ops)
    unfold LogFS.fileCount
    cases hact : (LogFS.run maxLogSize 2 ops).activeSize with
    | none =>
      show 0 + (LogFS.run maxLogSize 2 ops).gens.card ≤ 3
      omega
    | some sz =>
      show 1 + (LogFS.run maxLogSize 2 ops).gens.card ≤ 3
      omega

/-- C1 witness: the `maxLogSize = 100`, `maxLogFiles = 2` scenario, with
three over-sized appends each followed by a rotation check: at most 3 files
remain (exact count evaluated: 1). -/
theorem claim1_rotation_retention_witness :
    (1 ≤ 2)
    ∧ LogFS.fileCount (LogFS.run 100 2
        [LogOp.append 101, LogOp.rotateCheck, LogOp.append 101, LogOp.rotateCheck,
         LogOp.append 101, LogOp.rotateCheck]) ≤ 3
    ∧ LogFS.fileCount (LogFS.run 100 2
        [LogOp.append 101, LogOp.rotateCheck, LogOp.append 101, LogOp.rotateCheck,
         LogOp.append 101, LogOp.rotateCheck]) = 1 :=
  ⟨by decide,
    (claim1_rotation_retention 100 2 (by decide)).2.2.2
      [LogOp.append 101, LogOp.rotateCheck, LogOp.append 101, LogOp.rotateCheck,
       LogOp.append 101, LogOp.rotateCheck],
    by decide⟩

end Edex
